import Mathlib

set_option maxRecDepth 8000

/- Shallow embedding of gunrock-hip's compile-time kernel launch-configuration
   resolver (src/gunrock/cuda/launch_box.hxx) and of the graph base class
   (src/gunrock/graph/detail/graph_base.hxx).

   The resolver in the source is a C++ template metaprogram: the class template
   `device_launch_params_t<sm_lp_v...>` recursively selects, from an ordered pack
   of `sm_launch_params_t` records, the record whose `combined_ver` equals the
   active SM version (the `TEST_SM` macro), falling back to the record tagged
   `combined_ver == 0`.  The embedding below turns the pack into a `List` of
   records and the template recursion into a recursive function. -/

/-- Embeds `launch_params_t<block_dimensions_, grid_dimensions_, shared_memory_bytes_>`
(launch_box.hxx lines 26-37): the three numeric launch parameters that the
template exposes through its `enum`.  The C++ non-type template parameters have
type `unsigned int`; the resolver only ever compares them for equality, so each
field is modelled as the `Nat` value of the corresponding `unsigned int`
template argument. -/
structure launch_params_t where
  block_dimensions : Nat
  grid_dimensions : Nat
  shared_memory_bytes : Nat
  deriving DecidableEq, Repr

/-- Embeds a fully explicit `launch_params_t<b, g, s>` declaration. -/
def launch_params_decl (block_dimensions grid_dimensions shared_memory_bytes : Nat) :
    launch_params_t :=
  { block_dimensions := block_dimensions
    grid_dimensions := grid_dimensions
    shared_memory_bytes := shared_memory_bytes }

/-- Embeds a `launch_params_t<b, g>` declaration that omits the third template
argument, which the template defaults to `0` (line 29:
`unsigned int shared_memory_bytes_ = 0`). -/
def launch_params_decl_default (block_dimensions grid_dimensions : Nat) : launch_params_t :=
  launch_params_decl block_dimensions grid_dimensions 0

/-- Embeds `sm_launch_params_t<combined_ver_, launch_params_args_v...>`
(lines 48-51): a `launch_params_t` tagged with the combined SM version of the
target it is declared for.  `combined_ver = 0` is the fallback marker
(`fallback_launch_params_t`, lines 53-57). -/
structure sm_launch_params_t extends launch_params_t where
  combined_ver : Nat
  deriving DecidableEq, Repr

/-- Embeds the `sm_t<combined_ver_, ...>` alias (line 65): declare one record of a
launch box for a specific SM version. -/
def sm_t (combined_ver block_dimensions grid_dimensions shared_memory_bytes : Nat) :
    sm_launch_params_t :=
  { combined_ver := combined_ver
    block_dimensions := block_dimensions
    grid_dimensions := grid_dimensions
    shared_memory_bytes := shared_memory_bytes }

/-- Embeds the `fallback_t<...>` alias (line 61), i.e. `sm_launch_params_t` with
`combined_ver = 0` (lines 53-57). -/
def fallback_t (block_dimensions grid_dimensions shared_memory_bytes : Nat) :
    sm_launch_params_t :=
  sm_t 0 block_dimensions grid_dimensions shared_memory_bytes

/-- The `TEST_SM` macro (line 39): the combined SM version of the architecture the
build is targeting.  The source hard-wires it to 75; the theorems below keep the
active version as a parameter `active` standing for this macro's value. -/
def TEST_SM : Nat := 75

/-- The message of the `static_assert` inside `raise_not_found_error_t`
(line 118). -/
def launch_box_assert_message : String :=
  "launch_box_t could not find valid launch_params_t"

/-- The build-time failures that instantiating `device_launch_params_t` can
produce:
* `not_found msg` - the `static_assert` of `raise_not_found_error_t`
  (lines 116-119), referenced by the single-record specialization (line 128)
  when the last record matches neither the active version nor the fallback
  marker; `msg` is the assertion's message string.
* `incomplete_type` - the use of an incomplete class type as a base class:
  either `device_launch_params_t<>` (the primary template is declared on
  lines 92-93 but never defined, so an empty pack has no definition), or a
  self-referential instantiation (a pack whose recursion reaches a pack that is
  already being instantiated, which C++ rejects because a class that is still
  being defined is incomplete). -/
inductive build_error_t
  | not_found (message : String)
  | incomplete_type
  deriving DecidableEq, Repr

deriving instance DecidableEq for Except

/-- Tests whether a build error is the step-3 resolution failure (the
`raise_not_found_error_t` static assertion) as opposed to any other build
failure. -/
def build_error_t.is_resolution_failure : build_error_t → Bool
  | .not_found _ => true
  | .incomplete_type => false

/-- Embeds the recursion of `device_launch_params_t` (lines 92-129).
* `active` is the value of the `TEST_SM` macro;
* `pack` is the template parameter pack `sm_lp_v...` as an ordered list;
* `stack` is the chain of packs whose instantiation is currently in progress
  (each recursive step uses the next instantiation as a base class, so if the
  next pack is already on the chain the program is ill-formed: a class that is
  still being defined is an incomplete type and cannot be used as a base);
* `fuel` bounds the recursion depth so the function is total; `launch_box_t`
  below supplies a fuel that provably dominates every instantiation chain.

The three branches of the multi-record specialization (lines 96-106) are, in
source order: a fallback record is moved to the end of the pack; a record whose
`combined_ver` equals the active version is selected; any other record is
dropped.  The single-record specialization (lines 123-129) selects the record
when it matches the active version or is the fallback, and otherwise references
`raise_not_found_error_t`.  An empty pack instantiates the undefined primary
template (lines 92-93). -/
def device_launch_params_t (active fuel : Nat)
    (stack : List (List sm_launch_params_t))
    (pack : List sm_launch_params_t) :
    Option (Except build_error_t sm_launch_params_t) :=
  match pack with
  | [] => some (Except.error build_error_t.incomplete_type)
  | [p] =>
      some (if p.combined_ver = active ∨ p.combined_ver = 0
        then Except.ok p
        else Except.error (build_error_t.not_found launch_box_assert_message))
  | p :: q :: rest =>
      match fuel with
      | 0 => none
      | fuel + 1 =>
          if p.combined_ver = 0 then
            if q :: (rest ++ [p]) ∈ (p :: q :: rest) :: stack then
              some (Except.error build_error_t.incomplete_type)
            else
              device_launch_params_t active fuel ((p :: q :: rest) :: stack)
                (q :: (rest ++ [p]))
          else if p.combined_ver = active then
            some (Except.ok p)
          else
            if q :: rest ∈ (p :: q :: rest) :: stack then
              some (Except.error build_error_t.incomplete_type)
            else
              device_launch_params_t active fuel ((p :: q :: rest) :: stack) (q :: rest)

/-- All lists of length at most `n` whose elements are drawn from `elems`.  Every
pack reachable from the recursion of `device_launch_params_t` starting at a pack
`set` lies in `listsUpTo set set.length`, which bounds the depth of every
instantiation chain. -/
def listsUpTo {α : Type} (elems : List α) : Nat → List (List α)
  | 0 => [[]]
  | n + 1 => [] :: elems.flatMap (fun e => (listsUpTo elems n).map (fun l => e :: l))

/-- Fuel that provably dominates the depth of every `device_launch_params_t`
instantiation chain starting from `set`: the chain visits pairwise distinct
packs drawn from `listsUpTo set set.length`. -/
def launch_box_fuel (set : List sm_launch_params_t) : Nat :=
  (listsUpTo set set.length).length + set.length * set.length + set.length + 1

/-- Embeds `launch_box_t<sm_lp_v...>` (lines 135-138): it derives from
`device_launch_params_t<sm_lp_v...>`, so instantiating it resolves the declared
configuration set against the active SM version. -/
def launch_box_t (active : Nat) (set : List sm_launch_params_t) :
    Option (Except build_error_t sm_launch_params_t) :=
  device_launch_params_t active (launch_box_fuel set) [] set

/-- Number of leading fallback records of a pack. -/
def leading_fallbacks (pack : List sm_launch_params_t) : Nat :=
  (pack.takeWhile (fun p => p.combined_ver == 0)).length

/-- Termination measure for the instantiation chains that actually resolve: it
strictly decreases across each recursive step as long as the pack contains an
exact match or at most one fallback. -/
def resolution_measure (pack : List sm_launch_params_t) : Nat :=
  pack.length * pack.length + leading_fallbacks pack

/-- The number of values of the C++ type `unsigned int` (32 bits on every
platform this repository targets). -/
def unsigned_int_values : Nat := 2 ^ 32

/-- A build failure raised while declaring a record, before any resolution
happens. -/
inductive declaration_error_t
  | validation_failure
  deriving DecidableEq, Repr

/-- Converts one declared template argument to the `unsigned int` non-type
template parameter of `launch_params_t` (lines 26-30).  A template argument must
be a converted constant expression of the parameter's type, and C++ forbids a
narrowing conversion there, so an argument whose value is not representable as
`unsigned int` - in particular any negative dimension - is rejected at the
declaration site at compile time. -/
def as_unsigned_template_argument (v : Int) : Except declaration_error_t Nat :=
  if 0 ≤ v ∧ v < (unsigned_int_values : Int) then Except.ok v.toNat
  else Except.error declaration_error_t.validation_failure

/-- Declares `launch_params_t<block, grid, shared>` from arbitrary integer
template arguments, applying the converted-constant-expression rule of
`as_unsigned_template_argument` to each of the three `unsigned int`
parameters. -/
def launch_params_declare_checked (block grid shared : Int) :
    Except declaration_error_t launch_params_t :=
  match as_unsigned_template_argument block with
  | Except.error e => Except.error e
  | Except.ok b =>
    match as_unsigned_template_argument grid with
    | Except.error e => Except.error e
    | Except.ok g =>
      match as_unsigned_template_argument shared with
      | Except.error e => Except.error e
      | Except.ok s => Except.ok (launch_params_decl b g s)

/-- Modelled from the spec: `graph_properties_t` lives in
`gunrock/graph/properties.hxx`, which is not part of the given sources.
`graph_base_t` reads exactly one of its members, the `directed` flag
(graph_base.hxx line 49), so the type is modelled as a record holding that
flag. -/
structure graph_properties_t where
  directed : Bool
  deriving DecidableEq, Repr

/-- Modelled from the spec: the value a default-constructed
`graph_properties_t()` carries; its `directed` default lives in the missing
`properties.hxx`.  None of the proved claims depends on this value. -/
def graph_properties_t.default_constructed : graph_properties_t :=
  { directed := false }

/-- Embeds the state of `graph_base_t<vertex_t, edge_t, weight_t>`
(graph_base.hxx lines 19-73): the three protected members.  `weight_t` is kept
as a phantom parameter because the class only aliases it and stores no weight
member. -/
structure graph_base_t (vertex_t edge_t weight_t : Type) where
  _number_of_vertices : vertex_t
  _number_of_edges : edge_t
  _properties : graph_properties_t

/-- Embeds the default constructor `graph_base_t()` (lines 32-35): both counts
are initialized to the literal `0` and the properties are default
constructed. -/
def graph_base_t.default_constructed (vertex_t edge_t weight_t : Type)
    [Zero vertex_t] [Zero edge_t] : graph_base_t vertex_t edge_t weight_t :=
  { _number_of_vertices := 0
    _number_of_edges := 0
    _properties := graph_properties_t.default_constructed }

/-- Embeds the two-argument constructor
`graph_base_t(number_of_vertices, number_of_edges)` (lines 37-40). -/
def graph_base_t.of_counts {vertex_t edge_t weight_t : Type}
    (number_of_vertices : vertex_t) (number_of_edges : edge_t) :
    graph_base_t vertex_t edge_t weight_t :=
  { _number_of_vertices := number_of_vertices
    _number_of_edges := number_of_edges
    _properties := graph_properties_t.default_constructed }

/-- Embeds the three-argument constructor
`graph_base_t(number_of_vertices, number_of_edges, properties)`
(lines 42-45). -/
def graph_base_t.of_counts_and_properties {vertex_t edge_t weight_t : Type}
    (number_of_vertices : vertex_t) (number_of_edges : edge_t)
    (properties : graph_properties_t) : graph_base_t vertex_t edge_t weight_t :=
  { _number_of_vertices := number_of_vertices
    _number_of_edges := number_of_edges
    _properties := properties }

/-- Embeds `get_number_of_vertices()` (line 47). -/
def graph_base_t.get_number_of_vertices {vertex_t edge_t weight_t : Type}
    (g : graph_base_t vertex_t edge_t weight_t) : vertex_t :=
  g._number_of_vertices

/-- Embeds `get_number_of_edges()` (line 48). -/
def graph_base_t.get_number_of_edges {vertex_t edge_t weight_t : Type}
    (g : graph_base_t vertex_t edge_t weight_t) : edge_t :=
  g._number_of_edges

/-- Embeds `is_directed()` (line 49). -/
def graph_base_t.is_directed {vertex_t edge_t weight_t : Type}
    (g : graph_base_t vertex_t edge_t weight_t) : Bool :=
  g._properties.directed

example : launch_box_t 75 [sm_t 75 128 64 0, fallback_t 256 32 0] =
    some (Except.ok (sm_t 75 128 64 0)) := by decide

example : launch_box_t 75 [sm_t 61 128 64 0, fallback_t 256 32 0] =
    some (Except.ok (fallback_t 256 32 0)) := by decide

example : launch_box_t 75 [sm_t 61 128 64 0] =
    some (Except.error (build_error_t.not_found launch_box_assert_message)) := by decide

example : launch_box_t 75 [] = some (Except.error build_error_t.incomplete_type) := by
  decide

example : launch_box_t 75 [fallback_t 256 32 0, fallback_t 128 64 0] =
    some (Except.error build_error_t.incomplete_type) := by decide

example : launch_box_t 75 [fallback_t 256 32 0, sm_t 75 128 64 0] =
    some (Except.ok (sm_t 75 128 64 0)) := by decide

/-- Characterization of `listsUpTo`: membership is bounded length plus
elementwise membership. -/
theorem mem_listsUpTo {α : Type} (elems : List α) (n : Nat) (l : List α) :
    l ∈ listsUpTo elems n ↔ l.length ≤ n ∧ ∀ x ∈ l, x ∈ elems := by
  induction n generalizing l with
  | zero =>
    cases l with
    | nil => simp [listsUpTo]
    | cons x xs => simp [listsUpTo]
  | succ n ih =>
    cases l with
    | nil => simp [listsUpTo]
    | cons x xs =>
      simp only [listsUpTo, List.mem_cons, List.mem_flatMap, List.mem_map]
      constructor
      · rintro (h | ⟨e, he, t, ht, hct⟩)
        · exact absurd h (by simp)
        · obtain ⟨h1, h2⟩ := (ih t).mp ht
          obtain ⟨hx, hxs⟩ := List.cons.inj hct
          subst hx; subst hxs
          refine ⟨by simpa using Nat.succ_le_succ h1, ?_⟩
          intro y hy
          rcases hy with hy | hy
          · subst hy; exact he
          · exact h2 y hy
      · rintro ⟨h1, h2⟩
        refine Or.inr ⟨x, h2 x (Or.inl rfl), xs, ?_, rfl⟩
        exact (ih xs).mpr ⟨Nat.le_of_succ_le_succ (by simpa using h1),
          fun y hy => h2 y (Or.inr hy)⟩

/-- Rotating the head of a pack to its end stays inside `listsUpTo`. -/
theorem listsUpTo_closed_rotate {α : Type} {elems : List α} {n : Nat} {p : α}
    {t : List α} (h : p :: t ∈ listsUpTo elems n) : t ++ [p] ∈ listsUpTo elems n := by
  rw [mem_listsUpTo] at h ⊢
  obtain ⟨h1, h2⟩ := h
  refine ⟨by simpa using h1, ?_⟩
  intro x hx
  rcases List.mem_append.mp hx with hx | hx
  · exact h2 x (List.mem_cons_of_mem _ hx)
  · simp only [List.mem_singleton] at hx
    subst hx
    exact h2 x (List.mem_cons_self _ _)

/-- Dropping the head of a pack stays inside `listsUpTo`. -/
theorem listsUpTo_closed_drop {α : Type} {elems : List α} {n : Nat} {p : α}
    {t : List α} (h : p :: t ∈ listsUpTo elems n) : t ∈ listsUpTo elems n := by
  rw [mem_listsUpTo] at h ⊢
  obtain ⟨h1, h2⟩ := h
  exact ⟨Nat.le_of_succ_le (by simpa using h1),
    fun x hx => h2 x (List.mem_cons_of_mem _ hx)⟩

/-- Every instantiation of `device_launch_params_t` completes: the chain of
packs being instantiated consists of pairwise distinct members of a fixed
finite list, so once the fuel exceeds that list's length the fuel can never run
out. -/
theorem device_launch_params_t_isSome (active : Nat)
    (elems : List sm_launch_params_t) (n : Nat) :
    ∀ (fuel : Nat) (stack : List (List sm_launch_params_t))
      (pack : List sm_launch_params_t),
      pack ∈ listsUpTo elems n → pack ∉ stack →
      (∀ s ∈ stack, s ∈ listsUpTo elems n) → stack.Nodup →
      (listsUpTo elems n).length < fuel + stack.length →
      (device_launch_params_t active fuel stack pack).isSome := by
  intro fuel
  induction fuel with
  | zero =>
    intro stack pack hmem hnot hsub hnodup hlt
    match pack with
    | [] => simp [device_launch_params_t]
    | [p] => simp [device_launch_params_t]
    | p :: q :: rest =>
      exfalso
      have hsubset : (p :: q :: rest) :: stack ⊆ listsUpTo elems n := by
        intro s hs
        rcases List.mem_cons.mp hs with hs | hs
        · subst hs; exact hmem
        · exact hsub s hs
      have hnd : ((p :: q :: rest) :: stack).Nodup := List.nodup_cons.mpr ⟨hnot, hnodup⟩
      have hle : ((p :: q :: rest) :: stack).length ≤ (listsUpTo elems n).length :=
        (List.subperm_of_subset hnd hsubset).length_le
      simp only [List.length_cons] at hle
      omega
  | succ fuel ih =>
    intro stack pack hmem hnot hsub hnodup hlt
    match pack with
    | [] => simp [device_launch_params_t]
    | [p] => simp [device_launch_params_t]
    | p :: q :: rest =>
      have hstep : ∀ next : List sm_launch_params_t,
          next ∈ listsUpTo elems n → next ∉ (p :: q :: rest) :: stack →
          (device_launch_params_t active fuel ((p :: q :: rest) :: stack) next).isSome := by
        intro next hnmem hnnot
        apply ih _ next hnmem hnnot
        · intro s hs
          rcases List.mem_cons.mp hs with hs | hs
          · subst hs; exact hmem
          · exact hsub s hs
        · exact List.nodup_cons.mpr ⟨hnot, hnodup⟩
        · simp only [List.length_cons]; omega
      rw [device_launch_params_t]
      by_cases hp0 : p.combined_ver = 0
      · rw [if_pos hp0]
        by_cases hrot : q :: (rest ++ [p]) ∈ (p :: q :: rest) :: stack
        · rw [if_pos hrot]; rfl
        · rw [if_neg hrot]
          exact hstep _ (by simpa using listsUpTo_closed_rotate hmem) hrot
      · rw [if_neg hp0]
        by_cases hpa : p.combined_ver = active
        · rw [if_pos hpa]; rfl
        · rw [if_neg hpa]
          by_cases hdrop : q :: rest ∈ (p :: q :: rest) :: stack
          · rw [if_pos hdrop]; rfl
          · rw [if_neg hdrop]
            exact hstep _ (listsUpTo_closed_drop hmem) hdrop

theorem leading_fallbacks_cons_zero (p : sm_launch_params_t)
    (t : List sm_launch_params_t) (h : p.combined_ver = 0) :
    leading_fallbacks (p :: t) = leading_fallbacks t + 1 := by
  simp [leading_fallbacks, List.takeWhile_cons, h]

theorem leading_fallbacks_cons_nonzero (p : sm_launch_params_t)
    (t : List sm_launch_params_t) (h : ¬ p.combined_ver = 0) :
    leading_fallbacks (p :: t) = 0 := by
  simp [leading_fallbacks, List.takeWhile_cons, h]

/-- Appending after a pack that contains a non-fallback record does not change
its leading-fallback count. -/
theorem leading_fallbacks_append (t l' : List sm_launch_params_t)
    (h : ∃ x ∈ t, ¬ x.combined_ver = 0) :
    leading_fallbacks (t ++ l') = leading_fallbacks t := by
  induction t with
  | nil => simp at h
  | cons a t ih =>
    by_cases ha : a.combined_ver = 0
    · obtain ⟨x, hx, hxnz⟩ := h
      rcases List.mem_cons.mp hx with hx | hx
      · exact absurd ha (hx ▸ hxnz)
      · rw [List.cons_append, leading_fallbacks_cons_zero _ _ ha,
          leading_fallbacks_cons_zero _ _ ha, ih ⟨x, hx, hxnz⟩]
    · rw [List.cons_append, leading_fallbacks_cons_nonzero _ _ ha,
        leading_fallbacks_cons_nonzero _ _ ha]

theorem leading_fallbacks_le_length (pack : List sm_launch_params_t) :
    leading_fallbacks pack ≤ pack.length :=
  (List.takeWhile_sublist _).length_le

/-- Dropping a non-matching head strictly decreases the resolution measure. -/
theorem resolution_measure_drop (p q : sm_launch_params_t)
    (rest : List sm_launch_params_t) :
    resolution_measure (q :: rest) < resolution_measure (p :: q :: rest) := by
  have h := leading_fallbacks_le_length (q :: rest)
  simp only [resolution_measure, List.length_cons] at h ⊢
  nlinarith

/-- Rotating a fallback head to the end strictly decreases the resolution
measure, provided some record of the tail is not a fallback. -/
theorem resolution_measure_rotate (p : sm_launch_params_t)
    (t : List sm_launch_params_t) (hp : p.combined_ver = 0)
    (h : ∃ x ∈ t, ¬ x.combined_ver = 0) :
    resolution_measure (t ++ [p]) < resolution_measure (p :: t) := by
  simp only [resolution_measure, List.length_append, List.length_cons,
    List.length_singleton]
  rw [leading_fallbacks_append t [p] h, leading_fallbacks_cons_zero p t hp]
  exact Nat.add_lt_add_left (Nat.lt_succ_self _) _

theorem not_mem_of_measure_lt {x : List sm_launch_params_t}
    {L : List (List sm_launch_params_t)}
    (h : ∀ s ∈ L, resolution_measure x < resolution_measure s) : x ∉ L :=
  fun hx => absurd (h x hx) (lt_irrefl _)

/-- Core lemma for exact matches: when the pack contains a record tagged with
the (nonzero) active version, the instantiation chain selects the first such
record, whatever other records surround it. -/
theorem device_launch_params_t_finds_match (active : Nat) (ha : active ≠ 0) :
    ∀ (fuel : Nat) (stack : List (List sm_launch_params_t))
      (pack : List sm_launch_params_t) (m : sm_launch_params_t),
      pack.find? (fun p => p.combined_ver == active) = some m →
      (∀ s ∈ stack, resolution_measure pack < resolution_measure s) →
      resolution_measure pack < fuel →
      device_launch_params_t active fuel stack pack = some (Except.ok m) := by
  intro fuel
  induction fuel with
  | zero =>
    intro stack pack m _ _ hlt
    exact absurd hlt (Nat.not_lt_zero _)
  | succ fuel ih =>
    intro stack pack m hfind hstack hlt
    match pack with
    | [] => simp [List.find?] at hfind
    | [p] =>
      rw [device_launch_params_t]
      by_cases hpa : p.combined_ver = active
      · have hmp : m = p := by
          rw [List.find?_cons_of_pos _ (by simp [hpa])] at hfind
          exact (Option.some.inj hfind).symm
        subst hmp
        rw [if_pos (Or.inl hpa)]
      · rw [List.find?_cons_of_neg _ (by simp [hpa])] at hfind
        simp [List.find?] at hfind
    | p :: q :: rest =>
      rw [device_launch_params_t]
      by_cases hp0 : p.combined_ver = 0
      · have hpa : ¬ p.combined_ver = active := fun h => ha (h ▸ hp0)
        have hfind' : (q :: rest).find? (fun p => p.combined_ver == active) = some m := by
          rw [List.find?_cons_of_neg _ (by simp [hpa])] at hfind
          exact hfind
        have hfindnext :
            (q :: (rest ++ [p])).find? (fun p => p.combined_ver == active) = some m := by
          have hshape : (q :: rest) ++ [p] = q :: (rest ++ [p]) := rfl
          rw [← hshape, List.find?_append, hfind']
          rfl
        have hm_mem : m ∈ q :: rest := List.mem_of_find?_eq_some hfind'
        have hm_act : m.combined_ver = active := by
          have := List.find?_some hfind'
          simpa using this
        have hwit : ∃ x ∈ q :: rest, ¬ x.combined_ver = 0 :=
          ⟨m, hm_mem, fun h0 => ha (hm_act ▸ h0)⟩
        have hmlt : resolution_measure (q :: (rest ++ [p])) <
            resolution_measure (p :: q :: rest) := by
          have := resolution_measure_rotate p (q :: rest) hp0 hwit
          simpa using this
        have hnm : q :: (rest ++ [p]) ∉ (p :: q :: rest) :: stack := by
          apply not_mem_of_measure_lt
          intro s hs
          rcases List.mem_cons.mp hs with hs | hs
          · subst hs; exact hmlt
          · exact lt_trans hmlt (hstack s hs)
        rw [if_pos hp0, if_neg hnm]
        apply ih _ _ m hfindnext
        · intro s hs
          rcases List.mem_cons.mp hs with hs | hs
          · subst hs; exact hmlt
          · exact lt_trans hmlt (hstack s hs)
        · omega
      · rw [if_neg hp0]
        by_cases hpa : p.combined_ver = active
        · have hmp : m = p := by
            rw [List.find?_cons_of_pos _ (by simp [hpa])] at hfind
            exact (Option.some.inj hfind).symm
          subst hmp
          rw [if_pos hpa]
        · rw [if_neg hpa]
          have hfind' : (q :: rest).find? (fun p => p.combined_ver == active) = some m := by
            rw [List.find?_cons_of_neg _ (by simp [hpa])] at hfind
            exact hfind
          have hmlt := resolution_measure_drop p q rest
          have hnm : q :: rest ∉ (p :: q :: rest) :: stack := by
            apply not_mem_of_measure_lt
            intro s hs
            rcases List.mem_cons.mp hs with hs | hs
            · subst hs; exact hmlt
            · exact lt_trans hmlt (hstack s hs)
          rw [if_neg hnm]
          apply ih _ _ m hfind'
          · intro s hs
            rcases List.mem_cons.mp hs with hs | hs
            · subst hs; exact hmlt
            · exact lt_trans hmlt (hstack s hs)
          · omega

/-- A list whose fallback count is one has a unique fallback record. -/
theorem fallback_unique {l : List sm_launch_params_t}
    (h : l.countP (fun p => p.combined_ver == 0) = 1)
    {a b : sm_launch_params_t} (hal : a ∈ l) (hbl : b ∈ l)
    (haz : a.combined_ver = 0) (hbz : b.combined_ver = 0) : a = b := by
  rw [List.countP_eq_length_filter] at h
  obtain ⟨c, hc⟩ := List.length_eq_one.mp h
  have ha' : a ∈ l.filter (fun p => p.combined_ver == 0) :=
    List.mem_filter.mpr ⟨hal, by simp [haz]⟩
  have hb' : b ∈ l.filter (fun p => p.combined_ver == 0) :=
    List.mem_filter.mpr ⟨hbl, by simp [hbz]⟩
  rw [hc, List.mem_singleton] at ha' hb'
  rw [ha', hb']

/-- Core lemma for the fallback: when no record matches the active version and
the pack holds exactly one fallback record, the instantiation chain selects that
fallback. -/
theorem device_launch_params_t_finds_fallback (active : Nat) :
    ∀ (fuel : Nat) (stack : List (List sm_launch_params_t))
      (pack : List sm_launch_params_t) (f : sm_launch_params_t),
      (∀ x ∈ pack, ¬ x.combined_ver = active) →
      pack.countP (fun p => p.combined_ver == 0) = 1 →
      f ∈ pack → f.combined_ver = 0 →
      (∀ s ∈ stack, resolution_measure pack < resolution_measure s) →
      resolution_measure pack < fuel →
      device_launch_params_t active fuel stack pack = some (Except.ok f) := by
  intro fuel
  induction fuel with
  | zero =>
    intro stack pack f _ _ _ _ _ hlt
    exact absurd hlt (Nat.not_lt_zero _)
  | succ fuel ih =>
    intro stack pack f hnm hcount hfmem hf0 hstack hlt
    match pack with
    | [] => simp at hfmem
    | [p] =>
      rw [List.mem_singleton] at hfmem
      subst hfmem
      rw [device_launch_params_t, if_pos (Or.inr hf0)]
    | p :: q :: rest =>
      rw [device_launch_params_t]
      by_cases hp0 : p.combined_ver = 0
      · have hpf : p = f :=
          fallback_unique hcount (List.mem_cons_self _ _) hfmem hp0 hf0
        subst hpf
        have hcount' : (q :: rest).countP (fun p => p.combined_ver == 0) = 0 := by
          rw [List.countP_cons_of_pos _ _ (by simp [hp0])] at hcount
          omega
        have hall : ∀ x ∈ q :: rest, ¬ x.combined_ver = 0 := by
          intro x hx
          have := List.countP_eq_zero.mp hcount' x hx
          simpa using this
        have hq0 : ¬ q.combined_ver = 0 := hall q (List.mem_cons_self _ _)
        have hwit : ∃ x ∈ q :: rest, ¬ x.combined_ver = 0 :=
          ⟨q, List.mem_cons_self _ _, hq0⟩
        have hmlt : resolution_measure (q :: (rest ++ [p])) <
            resolution_measure (p :: q :: rest) := by
          have := resolution_measure_rotate p (q :: rest) hp0 hwit
          simpa using this
        have hnmem : q :: (rest ++ [p]) ∉ (p :: q :: rest) :: stack := by
          apply not_mem_of_measure_lt
          intro s hs
          rcases List.mem_cons.mp hs with hs | hs
          · subst hs; exact hmlt
          · exact lt_trans hmlt (hstack s hs)
        rw [if_pos hp0, if_neg hnmem]
        apply ih _ _ p
        · intro x hx
          have hx' : x ∈ p :: q :: rest := by
            rcases List.mem_cons.mp hx with hx | hx
            · subst hx; exact List.mem_cons_of_mem _ (List.mem_cons_self _ _)
            · rcases List.mem_append.mp hx with hx | hx
              · exact List.mem_cons_of_mem _ (List.mem_cons_of_mem _ hx)
              · rw [List.mem_singleton] at hx
                subst hx
                exact List.mem_cons_self _ _
          exact hnm x hx'
        · have hshape : q :: (rest ++ [p]) = (q :: rest) ++ [p] := rfl
          rw [hshape, List.countP_append, hcount']
          simp [hp0]
        · have hshape : q :: (rest ++ [p]) = (q :: rest) ++ [p] := rfl
          rw [hshape]
          exact List.mem_append.mpr (Or.inr (List.mem_singleton.mpr rfl))
        · exact hf0
        · intro s hs
          rcases List.mem_cons.mp hs with hs | hs
          · subst hs; exact hmlt
          · exact lt_trans hmlt (hstack s hs)
        · omega
      · have hpa : ¬ p.combined_ver = active := hnm p (List.mem_cons_self _ _)
        rw [if_neg hp0, if_neg hpa]
        have hfp : ¬ f = p := fun h => hp0 (h ▸ hf0)
        have hfmem' : f ∈ q :: rest := by
          rcases List.mem_cons.mp hfmem with h | h
          · exact absurd h hfp
          · exact h
        have hcount' : (q :: rest).countP (fun p => p.combined_ver == 0) = 1 := by
          rw [List.countP_cons_of_neg _ _ (by simp [hp0])] at hcount
          exact hcount
        have hmlt := resolution_measure_drop p q rest
        have hnmem : q :: rest ∉ (p :: q :: rest) :: stack := by
          apply not_mem_of_measure_lt
          intro s hs
          rcases List.mem_cons.mp hs with hs | hs
          · subst hs; exact hmlt
          · exact lt_trans hmlt (hstack s hs)
        rw [if_neg hnmem]
        apply ih _ _ f
        · exact fun x hx => hnm x (List.mem_cons_of_mem _ hx)
        · exact hcount'
        · exact hfmem'
        · exact hf0
        · intro s hs
          rcases List.mem_cons.mp hs with hs | hs
          · subst hs; exact hmlt
          · exact lt_trans hmlt (hstack s hs)
        · omega

/-- Core lemma for resolution failure: when no record matches the active
version and no fallback exists, the instantiation chain ends in the
`raise_not_found_error_t` static assertion. -/
theorem device_launch_params_t_not_found (active : Nat) :
    ∀ (fuel : Nat) (stack : List (List sm_launch_params_t))
      (pack : List sm_launch_params_t),
      pack ≠ [] →
      (∀ x ∈ pack, ¬ x.combined_ver = active ∧ ¬ x.combined_ver = 0) →
      (∀ s ∈ stack, resolution_measure pack < resolution_measure s) →
      resolution_measure pack < fuel →
      device_launch_params_t active fuel stack pack =
        some (Except.error (build_error_t.not_found launch_box_assert_message)) := by
  intro fuel
  induction fuel with
  | zero =>
    intro stack pack _ _ _ hlt
    exact absurd hlt (Nat.not_lt_zero _)
  | succ fuel ih =>
    intro stack pack hne hall hstack hlt
    match pack with
    | [] => exact absurd rfl hne
    | [p] =>
      obtain ⟨hpa, hp0⟩ := hall p (List.mem_cons_self _ _)
      rw [device_launch_params_t, if_neg (fun h => h.elim hpa hp0)]
    | p :: q :: rest =>
      obtain ⟨hpa, hp0⟩ := hall p (List.mem_cons_self _ _)
      rw [device_launch_params_t, if_neg hp0, if_neg hpa]
      have hmlt := resolution_measure_drop p q rest
      have hnmem : q :: rest ∉ (p :: q :: rest) :: stack := by
        apply not_mem_of_measure_lt
        intro s hs
        rcases List.mem_cons.mp hs with hs | hs
        · subst hs; exact hmlt
        · exact lt_trans hmlt (hstack s hs)
      rw [if_neg hnmem]
      apply ih
      · exact List.cons_ne_nil _ _
      · exact fun x hx => hall x (List.mem_cons_of_mem _ hx)
      · intro s hs
        rcases List.mem_cons.mp hs with hs | hs
        · subst hs; exact hmlt
        · exact lt_trans hmlt (hstack s hs)
      · omega

/-- Whatever record an instantiation chain selects is one of the records of the
pack it started from. -/
theorem device_launch_params_t_mem (active : Nat) :
    ∀ (fuel : Nat) (stack : List (List sm_launch_params_t))
      (pack : List sm_launch_params_t) (r : sm_launch_params_t),
      device_launch_params_t active fuel stack pack = some (Except.ok r) →
      r ∈ pack := by
  intro fuel
  induction fuel with
  | zero =>
    intro stack pack r h
    match pack with
    | [] => simp [device_launch_params_t] at h
    | [p] =>
      rw [device_launch_params_t] at h
      by_cases hc : p.combined_ver = active ∨ p.combined_ver = 0
      · rw [if_pos hc] at h
        have : p = r := Except.ok.inj (Option.some.inj h)
        subst this
        exact List.mem_cons_self _ _
      · rw [if_neg hc] at h
        simp at h
    | p :: q :: rest =>
      rw [device_launch_params_t] at h
      simp at h
  | succ fuel ih =>
    intro stack pack r h
    match pack with
    | [] => simp [device_launch_params_t] at h
    | [p] =>
      rw [device_launch_params_t] at h
      by_cases hc : p.combined_ver = active ∨ p.combined_ver = 0
      · rw [if_pos hc] at h
        have : p = r := Except.ok.inj (Option.some.inj h)
        subst this
        exact List.mem_cons_self _ _
      · rw [if_neg hc] at h
        simp at h
    | p :: q :: rest =>
      rw [device_launch_params_t] at h
      by_cases hp0 : p.combined_ver = 0
      · rw [if_pos hp0] at h
        by_cases hmem : q :: (rest ++ [p]) ∈ (p :: q :: rest) :: stack
        · rw [if_pos hmem] at h
          simp at h
        · rw [if_neg hmem] at h
          have hr := ih _ _ r h
          rcases List.mem_cons.mp hr with hr | hr
          · subst hr; exact List.mem_cons_of_mem _ (List.mem_cons_self _ _)
          · rcases List.mem_append.mp hr with hr | hr
            · exact List.mem_cons_of_mem _ (List.mem_cons_of_mem _ hr)
            · rw [List.mem_singleton] at hr
              subst hr
              exact List.mem_cons_self _ _
      · rw [if_neg hp0] at h
        by_cases hpa : p.combined_ver = active
        · rw [if_pos hpa] at h
          have : p = r := Except.ok.inj (Option.some.inj h)
          subst this
          exact List.mem_cons_self _ _
        · rw [if_neg hpa] at h
          by_cases hmem : q :: rest ∈ (p :: q :: rest) :: stack
          · rw [if_pos hmem] at h
            simp at h
          · rw [if_neg hmem] at h
            exact List.mem_cons_of_mem _ (ih _ _ r h)

/-- The fuel supplied by `launch_box_t` dominates the resolution measure of the
declared set. -/
theorem resolution_measure_lt_fuel (set : List sm_launch_params_t) :
    resolution_measure set < launch_box_fuel set := by
  have h := leading_fallbacks_le_length set
  simp only [resolution_measure, launch_box_fuel]
  generalize (listsUpTo set set.length).length = X
  generalize set.length * set.length = A
  omega

/-- C1: for every configuration set and every active target (the target id 0 is
reserved as the fallback marker, so an active target naming an architecture is
nonzero), if at least one record of the set carries `combined_ver` equal to the
active target, the launch box resolves to the first such record in declaration
order, regardless of the other non-matching or fallback records around it. -/
theorem claim_first_exact_match_wins (active : Nat) (set : List sm_launch_params_t)
    (m : sm_launch_params_t) (ha : active ≠ 0)
    (hfind : set.find? (fun p => p.combined_ver == active) = some m) :
    launch_box_t active set = some (Except.ok m) := by
  rw [launch_box_t]
  apply device_launch_params_t_finds_match active ha _ _ _ _ hfind
  · intro s hs
    simp at hs
  · exact resolution_measure_lt_fuel set

/-- Witness for C1: active target 75, a fallback declared first, a non-matching
record, and two records tagged 75 - the first one declared wins. -/
theorem claim_first_exact_match_wins_witness :
    (75 : Nat) ≠ 0 ∧
    [fallback_t 256 32 0, sm_t 61 64 32 0, sm_t 75 128 64 0,
        sm_t 75 999 999 0].find? (fun p => p.combined_ver == 75) =
      some (sm_t 75 128 64 0) ∧
    launch_box_t 75 [fallback_t 256 32 0, sm_t 61 64 32 0, sm_t 75 128 64 0,
        sm_t 75 999 999 0] = some (Except.ok (sm_t 75 128 64 0)) :=
  ⟨by decide, by decide,
    claim_first_exact_match_wins 75 _ _ (by decide) (by decide)⟩

/-- C2: when the set holds both a record matching the (nonzero) active target
and a fallback record, resolution returns the exact match - also when the
fallback is declared before the exact match. -/
theorem claim_exact_match_beats_fallback (active : Nat)
    (set : List sm_launch_params_t) (m : sm_launch_params_t) (ha : active ≠ 0)
    (hfind : set.find? (fun p => p.combined_ver == active) = some m)
    (_hfb : ∃ f ∈ set, f.combined_ver = 0) :
    launch_box_t active set = some (Except.ok m) ∧ m.combined_ver = active := by
  constructor
  · rw [launch_box_t]
    apply device_launch_params_t_finds_match active ha _ _ _ _ hfind
    · intro s hs
      simp at hs
    · exact resolution_measure_lt_fuel set
  · have := List.find?_some hfind
    simpa using this

/-- Witness for C2: the fallback is declared before the exact match and loses
to it. -/
theorem claim_exact_match_beats_fallback_witness :
    (75 : Nat) ≠ 0 ∧
    [fallback_t 256 32 0, sm_t 75 128 64 0].find? (fun p => p.combined_ver == 75) =
      some (sm_t 75 128 64 0) ∧
    (∃ f ∈ [fallback_t 256 32 0, sm_t 75 128 64 0], f.combined_ver = 0) ∧
    launch_box_t 75 [fallback_t 256 32 0, sm_t 75 128 64 0] =
      some (Except.ok (sm_t 75 128 64 0)) ∧
    (sm_t 75 128 64 0).combined_ver = 75 :=
  ⟨by decide, by decide, ⟨fallback_t 256 32 0, by decide, by decide⟩,
    claim_exact_match_beats_fallback 75 _ _ (by decide) (by decide)
      ⟨fallback_t 256 32 0, by decide, by decide⟩⟩

/-- C3: a set with no record matching the active target and exactly one
fallback record resolves to that fallback; and a set holding only a fallback
record resolves to it for every active target value. -/
theorem claim_fallback_when_no_match (active : Nat) (set : List sm_launch_params_t)
    (f : sm_launch_params_t)
    (hnm : ∀ x ∈ set, ¬ x.combined_ver = active)
    (hone : set.countP (fun p => p.combined_ver == 0) = 1)
    (hf : f ∈ set) (hf0 : f.combined_ver = 0) :
    launch_box_t active set = some (Except.ok f) ∧
      ∀ (active' : Nat) (g : sm_launch_params_t), g.combined_ver = 0 →
        launch_box_t active' [g] = some (Except.ok g) := by
  constructor
  · rw [launch_box_t]
    apply device_launch_params_t_finds_fallback active _ _ _ f hnm hone hf hf0
    · intro s hs
      simp at hs
    · exact resolution_measure_lt_fuel set
  · intro active' g hg0
    rw [launch_box_t, device_launch_params_t, if_pos (Or.inr hg0)]

/-- Witness for C3: scenario 2 of the spec - active 75, one non-matching record
followed by the only fallback. -/
theorem claim_fallback_when_no_match_witness :
    (∀ x ∈ [sm_t 61 128 64 0, fallback_t 256 32 0], ¬ x.combined_ver = 75) ∧
    [sm_t 61 128 64 0, fallback_t 256 32 0].countP (fun p => p.combined_ver == 0) = 1 ∧
    fallback_t 256 32 0 ∈ [sm_t 61 128 64 0, fallback_t 256 32 0] ∧
    (fallback_t 256 32 0).combined_ver = 0 ∧
    launch_box_t 75 [sm_t 61 128 64 0, fallback_t 256 32 0] =
      some (Except.ok (fallback_t 256 32 0)) :=
  ⟨by decide, by decide, by decide, by decide,
    (claim_fallback_when_no_match 75 _ _ (by decide) (by decide) (by decide)
      (by decide)).1⟩

/-- C4 counterexample: at scenario 3 of the spec (one record tagged 61, active
target 75) resolution does fail at build time, but the diagnostic is the fixed
string of the `static_assert` in `raise_not_found_error_t`; it contains no digit
at all, so it names neither the kernel nor the unmatched active target value
75. -/
theorem claim_failure_diagnostic_counterexample :
    launch_box_t 75 [sm_t 61 128 64 0] =
      some (Except.error (build_error_t.not_found launch_box_assert_message)) ∧
    launch_box_assert_message.toList.all (fun c => ! c.isDigit) = true :=
  ⟨by decide, by decide⟩

/-- C4 as amended: a non-empty set with neither a record matching the active
target nor a fallback fails at build time with the `raise_not_found_error_t`
static assertion, whose diagnostic is the fixed message
`launch_box_t could not find valid launch_params_t` (it names neither the
kernel nor the unmatched target value); no runtime error is produced. -/
theorem claim_resolution_failure_on_unmatched (active : Nat)
    (set : List sm_launch_params_t) (hne : set ≠ [])
    (hall : ∀ x ∈ set, ¬ x.combined_ver = active ∧ ¬ x.combined_ver = 0) :
    launch_box_t active set =
      some (Except.error (build_error_t.not_found launch_box_assert_message)) := by
  rw [launch_box_t]
  apply device_launch_params_t_not_found active _ _ _ hne hall
  · intro s hs
    simp at hs
  · exact resolution_measure_lt_fuel set

/-- Witness for the amended C4: scenario 3 of the spec. -/
theorem claim_resolution_failure_on_unmatched_witness :
    [sm_t 61 128 64 0] ≠ [] ∧
    (∀ x ∈ [sm_t 61 128 64 0], ¬ x.combined_ver = 75 ∧ ¬ x.combined_ver = 0) ∧
    launch_box_t 75 [sm_t 61 128 64 0] =
      some (Except.error (build_error_t.not_found launch_box_assert_message)) :=
  ⟨by decide, by decide,
    claim_resolution_failure_on_unmatched 75 _ (by decide) (by decide)⟩

/-- C5: resolution always completes within the fuel bound of `launch_box_t`:
for every configuration set and every active target the instantiation produces
a resolved record or a build error after finitely many steps - in particular
for sets holding more than one fallback and no exact match, where the recursion
revisits a pack already being instantiated and C++ rejects the self-referential
base class as incomplete. -/
theorem claim_resolution_terminates (active : Nat) (set : List sm_launch_params_t) :
    (launch_box_t active set).isSome := by
  rw [launch_box_t]
  apply device_launch_params_t_isSome active set set.length
  · exact (mem_listsUpTo _ _ _).mpr ⟨le_refl _, fun x hx => hx⟩
  · simp
  · intro s hs
    simp at hs
  · exact List.nodup_nil
  · simp only [List.length_nil, Nat.add_zero, launch_box_fuel]
    generalize (listsUpTo set set.length).length = X
    generalize set.length * set.length = A
    omega

/-- C6 counterexample: the empty configuration set does fail at build time, but
through the undefined primary template `device_launch_params_t<>` - an
incomplete-type error - not through the step-3 `raise_not_found_error_t`
static assertion. -/
theorem claim_empty_set_counterexample :
    launch_box_t 75 [] = some (Except.error build_error_t.incomplete_type) ∧
    build_error_t.incomplete_type.is_resolution_failure = false :=
  ⟨by decide, rfl⟩

/-- C6 as amended: for every active target, resolving an empty configuration
set fails at build time by instantiating the declared-but-undefined primary
template (an incomplete-type error), never silently choosing a configuration
and never producing a runtime error; the failure is not the step-3
`raise_not_found_error_t` assertion. -/
theorem claim_empty_set_fails (active : Nat) :
    launch_box_t active [] = some (Except.error build_error_t.incomplete_type) := by
  rw [launch_box_t, device_launch_params_t]

/-- C7: resolution is a pure, deterministic function of the pair (set, active
target): identical inputs give identical outputs, and the resolved record is
one of the declared records, exactly as declared (nothing is mutated or
synthesized). -/
theorem claim_resolution_pure (active : Nat) (set : List sm_launch_params_t) :
    (∀ o₁ o₂ : Option (Except build_error_t sm_launch_params_t),
        launch_box_t active set = o₁ → launch_box_t active set = o₂ → o₁ = o₂) ∧
    ∀ r : sm_launch_params_t,
      launch_box_t active set = some (Except.ok r) → r ∈ set := by
  constructor
  · intro o₁ o₂ h₁ h₂
    rw [← h₁, ← h₂]
  · intro r h
    rw [launch_box_t] at h
    exact device_launch_params_t_mem active _ _ _ r h

/-- Witness for C7. -/
theorem claim_resolution_pure_witness :
    launch_box_t 75 [sm_t 75 128 64 0] = some (Except.ok (sm_t 75 128 64 0)) ∧
    sm_t 75 128 64 0 ∈ [sm_t 75 128 64 0] :=
  ⟨by decide, (claim_resolution_pure 75 [sm_t 75 128 64 0]).2 _ (by decide)⟩

/-- C8: a record declared without an explicit `shared_memory_bytes_` argument
gets the template's default `0`, and the three numeric fields of a declared
record are exposed exactly as declared. -/
theorem claim_record_fields_as_declared (b g s : Nat) :
    (launch_params_decl_default b g).shared_memory_bytes = 0 ∧
    (launch_params_decl b g s).block_dimensions = b ∧
    (launch_params_decl b g s).grid_dimensions = g ∧
    (launch_params_decl b g s).shared_memory_bytes = s :=
  ⟨rfl, rfl, rfl, rfl⟩

/-- A negative template argument is rejected by the converted-constant-
expression rule. -/
theorem as_unsigned_neg {v : Int} (h : v < 0) :
    as_unsigned_template_argument v =
      Except.error declaration_error_t.validation_failure := by
  rw [as_unsigned_template_argument, if_neg]
  intro hc
  exact absurd hc.1 (by omega)

/-- C9: a malformed record declaration - one with a negative dimension - is
rejected at the declaration site at build time (`unsigned int` non-type
template parameters refuse the narrowing conversion), so it is never silently
accepted and never surfaces at run time. -/
theorem claim_malformed_record_rejected (block grid shared : Int)
    (h : block < 0 ∨ grid < 0 ∨ shared < 0) :
    launch_params_declare_checked block grid shared =
      Except.error declaration_error_t.validation_failure := by
  rcases h with h | h | h
  · rw [launch_params_declare_checked, as_unsigned_neg h]
  · rw [launch_params_declare_checked, as_unsigned_neg h]
    rcases hB : as_unsigned_template_argument block with e | b
    · cases e
      rfl
    · rfl
  · rw [launch_params_declare_checked, as_unsigned_neg h]
    rcases hB : as_unsigned_template_argument block with e | b
    · cases e
      rfl
    · rcases hG : as_unsigned_template_argument grid with e' | g
      · cases e'
        rfl
      · rfl

/-- Witness for C9: a record declared with a negative block dimension. -/
theorem claim_malformed_record_rejected_witness :
    ((-1 : Int) < 0 ∨ (64 : Int) < 0 ∨ (0 : Int) < 0) ∧
    launch_params_declare_checked (-1) 64 0 =
      Except.error declaration_error_t.validation_failure :=
  ⟨Or.inl (by decide),
    claim_malformed_record_rejected (-1) 64 0 (Or.inl (by decide))⟩

/-- C10: a `graph_base_t` constructed from a vertex count and an edge count
returns them unchanged from its getters, a default-constructed `graph_base_t`
returns 0 for both counts, and `is_directed` returns exactly the `directed`
flag of the stored properties. -/
theorem claim_graph_base_accessors (vertex_t edge_t weight_t : Type)
    [Zero vertex_t] [Zero edge_t] :
    (∀ (nv : vertex_t) (ne : edge_t),
        (@graph_base_t.of_counts vertex_t edge_t weight_t nv ne).get_number_of_vertices
            = nv ∧
        (@graph_base_t.of_counts vertex_t edge_t weight_t nv ne).get_number_of_edges
            = ne) ∧
    ((graph_base_t.default_constructed vertex_t edge_t weight_t).get_number_of_vertices
        = (0 : vertex_t) ∧
      (graph_base_t.default_constructed vertex_t edge_t weight_t).get_number_of_edges
        = (0 : edge_t)) ∧
    ∀ g : graph_base_t vertex_t edge_t weight_t,
      g.is_directed = g._properties.directed :=
  ⟨fun _ _ => ⟨rfl, rfl⟩, ⟨rfl, rfl⟩, fun _ => rfl⟩
